import Mathlib

/-!
Shallow embedding of the configuration resolution and refresh engine of
`src/index.js` (the `SpringCloudConfig` class): JS property values, the
`extend(true, ...)` deep merge, dot-path key expansion, the profile filter,
the four-stage resolution pipeline, and the watch timer state machine.

External collaborators (filesystem, YAML parser, the `cloud-config-client`
remote fetch) are passed in as explicit data: a file read is an
`Except String (List (Option YamlDoc))` (the parsed document sequence, or a
read/parse error), the remote fetch is a `FetchOutcome`.
-/

/-- JS value as produced by parsing YAML configuration: string, number,
boolean, null, plain object (property set), or array. Numbers are modelled
as integers (the engine never computes with them). -/
inductive Value where
  | vStr (s : String)
  | vNum (n : Int)
  | vBool (b : Bool)
  | vNull
  | obj (fields : List (String × Value))
  | arr (elems : List Value)
  deriving Repr

/-- A JS plain object: insertion-ordered association list of properties,
keys unique in any object produced by parsing. -/
abbrev PropertySet := List (String × Value)

/-- Property lookup `ps[key]`; `none` models JS `undefined`. -/
def psGet : PropertySet → String → Option Value
  | [], _ => none
  | (k, v) :: rest, key => if k = key then some v else psGet rest key

/-- Property assignment `ps[key] = v`: updates an existing key in place
(keeping its position, as JS objects do) or appends a new one. -/
def psSet : PropertySet → String → Value → PropertySet
  | [], key, v => [(key, v)]
  | (k, w) :: rest, key, v =>
    if k = key then (key, v) :: rest else (k, w) :: psSet rest key v

/-- JS truthiness of a value: `""`, `0`, `false` and `null` are falsy;
objects and arrays are always truthy. -/
def valueTruthy : Value → Bool
  | .vStr s => s != ""
  | .vNum n => n != 0
  | .vBool b => b
  | .vNull => false
  | .obj _ => true
  | .arr _ => true

/-- JS truthiness of a possibly-undefined value (`none` = `undefined`). -/
def truthyOpt : Option Value → Bool
  | none => false
  | some v => valueTruthy v

/-- Clone base chosen by `extend` for an object-valued source property: the
target's existing object at the key, or a fresh empty object when the
target value is absent or of another shape. -/
def objClone : Option Value → List (String × Value)
  | some (.obj f) => f
  | _ => []

/-- Clone base chosen by `extend` for an array-valued source property. -/
def arrClone : Option Value → List Value
  | some (.arr a) => a
  | _ => []

mutual

/-- Model of `extend(true, target, source)` from the `extend` package, as
invoked by `_mergeProperties`, `_readYaml` and `_parsePropertiesToObjects`:
walks the source's properties in order; a plain-object (resp. array) source
value is deep-merged into the target's existing object (resp. array) value
at that key, or into a fresh empty one if the target value has another
shape; any other source value overwrites. No key is ever removed. -/
def extendObj (target : PropertySet) : PropertySet → PropertySet
  | [] => target
  | (name, copy) :: rest =>
    extendObj (psSet target name (mergeInto (psGet target name) copy)) rest

/-- Merge of one source value `copy` over the target's existing value at
the same key (`src`, `none` when the key is absent), per `extend`'s
per-property rule. -/
def mergeInto (src : Option Value) (copy : Value) : Value :=
  match copy with
  | .obj fields => .obj (extendObj (objClone src) fields)
  | .arr elems => .arr (extendArr (arrClone src) elems)
  | c => c

/-- Deep merge of a source array over a target array, index-wise (the
`extend` package iterates the source's indices; target elements beyond the
source's length survive). -/
def extendArr (target : List Value) : List Value → List Value
  | [] => target
  | c :: cs =>
    match target with
    | [] => mergeInto none c :: extendArr [] cs
    | t :: ts => mergeInto (some t) c :: extendArr ts cs

end

/-- Model of `_mergeProperties(objects)`: folds `extend(true, mergedConfig,
objects[i])` over the inputs in order, starting from an empty object. -/
def mergeProperties (objects : List PropertySet) : PropertySet :=
  objects.foldl (fun acc o => extendObj acc o) []

/-- Splitting of a character list at every occurrence of `sep`, in the way
JS `String.prototype.split` does: the result is always non-empty, adjacent
separators and boundary separators yield empty components. -/
def splitListOn (sep : Char) : List Char → List (List Char)
  | [] => [[]]
  | c :: cs =>
    let rest := splitListOn sep cs
    if c = sep then [] :: rest
    else
      match rest with
      | r :: rs => (c :: r) :: rs
      | [] => [[c]]

/-- Model of JS `s.split(sep)` for a single-character separator. -/
def jsSplit (s : String) (sep : Char) : List String :=
  (splitListOn sep s.data).map fun cs => String.mk cs

/-- Test for a `.` occurring anywhere in a key. -/
def hasDot (s : String) : Bool := s.data.contains '.'

/-- Model of `_createObjectForProperty(propertyKeys, propertyValue)`:
turns the list of key segments into a chain of singleton objects ending in
the value. -/
def createObjectForProperty : List String → Value → Value
  | [], v => v
  | k :: rest, v => .obj [(k, createObjectForProperty rest v)]

/-- Model of `extend(true, object, built)` inside
`_parsePropertiesToObjects`: the built value is always a plain object there
(`split('.')` never returns an empty array); a non-object built value would
contribute no enumerable properties. -/
def extendWithValue (target : PropertySet) : Value → PropertySet
  | .obj o => extendObj target o
  | _ => target

/-- Model of `_parsePropertiesToObjects(propertiesObject)`: for a falsy
input (`none` = `undefined`/`null`) returns the empty object; otherwise
splits each top-level key on `.`, builds the nested singleton object for
its value, and deep-extends it into the accumulator. -/
def parsePropertiesToObjects (propertiesObject : Option PropertySet) : PropertySet :=
  match propertiesObject with
  | none => []
  | some props =>
    props.foldl
      (fun object kv =>
        extendWithValue object (createObjectForProperty (jsSplit kv.1 '.') kv.2))
      []

/-- One parsed YAML document as consumed by `_readYaml`: its `profiles`
field (a comma-separated string, or absent) and its full parsed content.
Documents that are not mappings are outside the model; a `null`/empty
document is `none` at the use sites. -/
structure YamlDoc where
  profiles : Option String
  content : PropertySet
  deriving Repr

/-- Test `documentProfiles[i][0] === "!"` on one profile token. -/
def tokenIsNegation (t : String) : Bool :=
  match t.data with
  | '!' :: _ => true
  | _ => false

/-- Model of `token.substring(1)`: the token without its first character. -/
def tokenBody (t : String) : String := String.mk (t.data.drop 1)

/-- Loop body of `_shouldUseDocument`: walks the comma-separated profile
tokens with the running `useThisDoc` flag; an empty token is skipped; a
negated token whose body is active returns `false` immediately; a plain
token that is active sets the flag; the flag is returned at the end. -/
def filterTokens (tokens : List String) (activeProfiles : List String) (useThisDoc : Bool) : Bool :=
  match tokens with
  | [] => useThisDoc
  | t :: rest =>
    if t = "" then filterTokens rest activeProfiles useThisDoc
    else if tokenIsNegation t then
      if tokenBody t ∈ activeProfiles then false
      else filterTokens rest activeProfiles useThisDoc
    else if t ∈ activeProfiles then filterTokens rest activeProfiles true
    else filterTokens rest activeProfiles useThisDoc

/-- Model of `_shouldUseDocument(document, activeProfiles)`: a falsy
(null/undefined) document is never used; a truthy document with a falsy
`profiles` field (absent or the empty string) is always used; otherwise,
with a truthy `activeProfiles` (any array — `none` models `undefined`),
the comma-separated tokens decide. -/
def shouldUseDocument (document : Option YamlDoc) (activeProfiles : Option (List String)) : Bool :=
  match document with
  | none => false
  | some doc =>
    match doc.profiles with
    | none => true
    | some p =>
      if p = "" then true
      else
        match activeProfiles with
        | none => false
        | some aps => filterTokens (jsSplit p ',') aps false

/-- Content merged by `_readYaml` for one parsed document; a null document
never reaches the merge (the filter rejects it). -/
def docContent : Option YamlDoc → PropertySet
  | some doc => doc.content
  | none => []

/-- Merge loop of `_readYaml`: folds `extend(true, doc, thisDoc)` over the
parsed documents in order, keeping only those accepted by
`_shouldUseDocument`. -/
def readYamlMerge (docs : List (Option YamlDoc)) (activeProfiles : Option (List String)) : PropertySet :=
  docs.foldl
    (fun acc d =>
      if shouldUseDocument d activeProfiles then extendObj acc (docContent d) else acc)
    []

/-- Model of `_readYamlAsDocument(path, activeProfiles)`: the file read and
YAML parse are the collaborator input `file` (error = `fs`/`js-yaml`
throw); on success the filtered merged document is dot-path expanded. -/
def readYamlAsDocument (file : Except String (List (Option YamlDoc)))
    (activeProfiles : Option (List String)) : Except String PropertySet :=
  match file with
  | .error e => .error e
  | .ok docs => .ok (parsePropertiesToObjects (some (readYamlMerge docs activeProfiles)))

/-- Result of looking for one profile-specific overlay file
`application-<profile>.yml`: missing (`existsSync` false), malformed
(`safeLoad` threw — logged and skipped), or parsed (possibly to a
null/empty document). -/
inductive ProfileFileResult where
  | absent
  | malformed
  | parsed (doc : Option PropertySet)
  deriving Repr

/-- Outcome of the `cloud-config-client.load` collaborator: the promise
resolved (possibly with a falsy properties object, `none`), the promise
rejected, or the client threw synchronously. `success` carries the flat
`(key, value)` entries its `forEach` would enumerate. -/
inductive FetchOutcome where
  | success (props : Option (List (String × Value)))
  | failure
  | thrown
  deriving Repr

/-- Model of `_readApplicationConfig(appConfigPath, activeProfiles)`: reads
`application.yml` (fatal on error), appends each present well-formed
profile-specific overlay in `activeProfiles` order (absent or malformed
overlays are skipped), and merges the collected documents. -/
def readApplicationConfig (applicationFile : Except String (List (Option YamlDoc)))
    (profileFile : String → ProfileFileResult)
    (activeProfiles : List String) : Except String PropertySet :=
  match readYamlAsDocument applicationFile (some activeProfiles) with
  | .error e => .error e
  | .ok applicationConfig =>
    let appConfigs := activeProfiles.foldl
      (fun acc p =>
        match profileFile p with
        | .parsed d => acc ++ [parsePropertiesToObjects d]
        | _ => acc)
      [applicationConfig]
    .ok (mergeProperties appConfigs)

/-- JS property read `v.field` where `v` may be `undefined`: reading a
property of `undefined` or `null` throws a `TypeError`; on a primitive or
an array a named (non-index) property is `undefined`; on a plain object it
is the stored value. -/
def jsRead (v : Option Value) (field : String) : Except String (Option Value) :=
  match v with
  | none => .error ("TypeError: Cannot read property '" ++ field ++ "' of undefined")
  | some .vNull => .error ("TypeError: Cannot read property '" ++ field ++ "' of null")
  | some (.obj fs) => .ok (psGet fs field)
  | some _ => .ok none

/-- Update of the nested field chain reached through existing plain
objects; callers establish that every step exists and is an object. -/
def psSetPath : PropertySet → List String → Value → PropertySet
  | ps, [], _ => ps
  | ps, [k], v => psSet ps k v
  | ps, k :: rest, v =>
    match psGet ps k with
    | some (.obj fs) => psSet ps k (.obj (psSetPath fs rest v))
    | _ => ps

/-- Model of the statement `bootstrap.spring.cloud.config.<field> = v`
(lines 90 and 104 of `src/index.js`), evaluated as strict-mode JS (class
bodies are strict): the reads of `.spring`, `.cloud`, `.config` throw on
`undefined`/`null`; the final assignment throws when its target is
`undefined`, `null` or a primitive; on an array the expando property is
accepted but is invisible to the rest of the engine, so the state is
returned unchanged; on a plain object the field is stored. -/
def setBootstrapConfigField (bootstrap : PropertySet) (field : String) (v : Value) :
    Except String PropertySet :=
  match jsRead (some (.obj bootstrap)) "spring" with
  | .error e => .error e
  | .ok spring =>
    match jsRead spring "cloud" with
    | .error e => .error e
    | .ok cloud =>
      match jsRead cloud "config" with
      | .error e => .error e
      | .ok config =>
        match config with
        | none => .error ("TypeError: Cannot set property '" ++ field ++ "' of undefined")
        | some .vNull => .error ("TypeError: Cannot set property '" ++ field ++ "' of null")
        | some (.obj _) =>
          .ok (psSetPath bootstrap ["spring", "cloud", "config", field] v)
        | some (.arr _) => .ok bootstrap
        | some _ => .error ("TypeError: Cannot create property '" ++ field ++ "' on a primitive")

/-- Guarded read `applicationConfig.spring && applicationConfig.spring.cloud
&& applicationConfig.spring.cloud.config &&
applicationConfig.spring.cloud.config.name` (lines 100-104): every step is
truthiness-guarded, so no read can throw; yields the name exactly when all
four guards are truthy. -/
def applicationConfigName (applicationConfig : PropertySet) : Option Value :=
  match psGet applicationConfig "spring" with
  | some (.obj springFs) =>
    if valueTruthy (.obj springFs) then
      match psGet springFs "cloud" with
      | some (.obj cloudFs) =>
        if valueTruthy (.obj cloudFs) then
          match psGet cloudFs "config" with
          | some (.obj configFs) =>
            if valueTruthy (.obj configFs) then
              match psGet configFs "name" with
              | some name => if valueTruthy name then some name else none
              | none => none
            else none
          | _ => none
        else none
      | _ => none
    else none
  | _ => none

/-- Flat property collection built by the `forEach` loop over the fetched
cloud config properties: `cloudConfig[key] = value` in order. -/
def collectCloudProperties (props : List (String × Value)) : PropertySet :=
  props.foldl (fun acc kv => psSet acc kv.1 kv.2) []

/-- Model of `_readCloudConfig(bootStrapConfig)`: evaluates
`bootStrapConfig.spring.cloud.config.enabled` (a throw here rejects the
returned promise); when falsy, resolves with the empty object; when
truthy, delegates to the fetch collaborator — a falsy fetched properties
object, a rejection, or a synchronous throw all resolve with the empty
object, and a truthy result is collected flat and dot-path expanded. -/
def readCloudConfig (bootStrapConfig : PropertySet) (fetch : FetchOutcome) :
    Except String PropertySet :=
  match jsRead (some (.obj bootStrapConfig)) "spring" with
  | .error e => .error e
  | .ok spring =>
    match jsRead spring "cloud" with
    | .error e => .error e
    | .ok cloud =>
      match jsRead cloud "config" with
      | .error e => .error e
      | .ok config =>
        match jsRead config "enabled" with
        | .error e => .error e
        | .ok enabled =>
          if truthyOpt enabled then
            match fetch with
            | .success (some props) =>
              .ok (parsePropertiesToObjects (some (collectCloudProperties props)))
            | .success none => .ok []
            | .failure => .ok []
            | .thrown => .ok []
          else .ok []

/-- Name-override step of the local stage (lines 100-105): when the
application config holds a truthy `spring.cloud.config.name` behind truthy
guards, it is written into the bootstrap config at the same path (the
write can throw exactly like the profiles write). -/
def applyNameOverride (bootstrap : PropertySet) (applicationConfig : PropertySet) :
    Except String PropertySet :=
  match applicationConfigName applicationConfig with
  | some name => setBootstrapConfigField bootstrap "name" name
  | none => .ok bootstrap

/-- Instance fields set by one successful `_readConfig` pass. -/
structure ResolvedState where
  bootstrapConfig : PropertySet
  localConfig : PropertySet
  remoteConfig : PropertySet
  config : PropertySet
  deriving Repr

/-- Model of `_readConfig()`: bootstrap stage (read `bootstrap.yml`, then
unconditionally write the active profiles into
`spring.cloud.config.profiles`), local stage (application config, then
copy a truthy `spring.cloud.config.name` into the bootstrap config),
remote stage (`_readCloudConfig`), compose stage (`_generateConfig`'s
merge of bootstrap, local, remote in order). Any stage error rejects the
pass. -/
def readConfig (activeProfiles : List String)
    (bootstrapFile applicationFile : Except String (List (Option YamlDoc)))
    (profileFile : String → ProfileFileResult) (fetch : FetchOutcome) :
    Except String ResolvedState :=
  match readYamlAsDocument bootstrapFile (some activeProfiles) with
  | .error e => .error e
  | .ok bootstrapRaw =>
    match setBootstrapConfigField bootstrapRaw "profiles"
        (.arr (activeProfiles.map fun p => .vStr p)) with
    | .error e => .error e
    | .ok bootstrapWithProfiles =>
      match readApplicationConfig applicationFile profileFile activeProfiles with
      | .error e => .error e
      | .ok applicationConfig =>
        match applyNameOverride bootstrapWithProfiles applicationConfig with
        | .error e => .error e
        | .ok bootstrapConfig =>
          match readCloudConfig bootstrapConfig fetch with
          | .error e => .error e
          | .ok remoteConfig =>
            .ok { bootstrapConfig := bootstrapConfig,
                  localConfig := applicationConfig,
                  remoteConfig := remoteConfig,
                  config := mergeProperties [bootstrapConfig, applicationConfig, remoteConfig] }

/-- Options passed to the `SpringCloudConfig` constructor, restricted to
the fields `load()` inspects (`level` only tunes logging). -/
structure Options where
  configPath : Option String
  activeProfiles : Option (List String)
  bootstrapPath : Option String

/-- Truthiness test `this._options.configPath && this._options.activeProfiles`
of `load()`: an absent or empty-string `configPath` is falsy; any supplied
profiles array (even empty) is truthy. -/
def optionsValid (o : Options) : Bool :=
  (match o.configPath with
   | some s => s != ""
   | none => false) &&
  o.activeProfiles.isSome

/-- Rejection message of `load()` on invalid options. -/
def invalidOptionsMessage : String :=
  "Invalid options supplied. Please consult the documentation."

/-- Model of `load()`: rejects with the invalid-options message before
consulting any collaborator when `configPath`/`activeProfiles` are falsy,
and otherwise runs `_readConfig()`. -/
def load (opts : Options)
    (bootstrapFile applicationFile : Except String (List (Option YamlDoc)))
    (profileFile : String → ProfileFileResult) (fetch : FetchOutcome) :
    Except String ResolvedState :=
  if optionsValid opts then
    readConfig (opts.activeProfiles.getD []) bootstrapFile applicationFile profileFile fetch
  else .error invalidOptionsMessage

/-- Watch state `this._watchConfig` plus the event loop's pending-timer
fact: `pending` is true exactly when `timerId` designates a scheduled,
not-yet-fired timeout. -/
structure WatchConfig where
  interval : Nat
  running : Bool
  pending : Bool
  deriving Repr

/-- Model of `startWatch(interval)`: keeps the old interval when the
argument is absent or falsy (`interval || this._watchConfig.interval`),
marks the watcher running, cancels any pending timer and schedules a new
one. -/
def startWatch (w : WatchConfig) (interval : Option Nat) : WatchConfig :=
  { interval :=
      match interval with
      | some n => if n = 0 then w.interval else n
      | none => w.interval,
    running := true,
    pending := true }

/-- Model of `endWatch()`: clears the running flag only; a pending timer
stays scheduled. -/
def endWatch (w : WatchConfig) : WatchConfig := { w with running := false }

/-- Scheduling effect of one timer firing: the fired timer is consumed,
then the callback reschedules via `startWatch()` exactly when
`!this._watchConfig.running` holds (line 48 of `src/index.js`). -/
def timerFire (w : WatchConfig) : WatchConfig :=
  let fired : WatchConfig := { w with pending := false }
  if !fired.running then startWatch fired none else fired

/-- Notification raised by the watch callback: `CONFIG_REFRESH` with its
payload, or `CONFIG_ERROR` with the pass error. -/
inductive WatchEvent where
  | refresh (payload : PropertySet)
  | error (message : String)
  deriving Repr

/-- Instance state of a `SpringCloudConfig` object as far as the watcher
observes and mutates it. -/
structure SccState where
  bootstrapConfig : Option PropertySet
  localConfig : Option PropertySet
  remoteConfig : Option PropertySet
  config : Option PropertySet
  watch : WatchConfig
  deriving Repr

/-- Model of `getConfig()`. -/
def getConfig (s : SccState) : Option PropertySet := s.config

/-- Result of one watch timer firing: the successor instance state and the
notification emitted once the `_readCloudConfig` promise settles. -/
structure FireResult where
  state : SccState
  event : WatchEvent
  deriving Repr

/-- Model of the `setTimeout` callback installed by `startWatch` (lines
39-51): runs `_readCloudConfig(this._bootstrapConfig)` — only the remote
stage, throwing when no bootstrap config was ever resolved — and emits
`CONFIG_REFRESH` with that promise's value or `CONFIG_ERROR` with its
error; no other instance field is written, and the reschedule decision of
`timerFire` is applied to the watch state. -/
def configWatchFire (s : SccState) (fetch : FetchOutcome) : FireResult :=
  let event :=
    match s.bootstrapConfig with
    | none => WatchEvent.error "TypeError: Cannot read property 'spring' of undefined"
    | some b =>
      match readCloudConfig b fetch with
      | .ok remote => WatchEvent.refresh remote
      | .error e => WatchEvent.error e
  { state := { s with watch := timerFire s.watch }, event := event }

/-- Keys of a JS object are unique; every PropertySet produced by parsing
satisfies this. -/
abbrev psKeysNodup (ps : PropertySet) : Prop := (ps.map Prod.fst).Nodup

/-- Scalar test: a value that is neither a plain object nor an array. -/
def isScalarValue : Value → Bool
  | .obj _ => false
  | .arr _ => false
  | _ => true

/-- Value held by the latest input that contains the key, across an ordered
sequence of property sets — the value the claim says the merge must keep. -/
def lastProvided (objects : List PropertySet) (k : String) : Option Value :=
  (objects.filterMap fun o => psGet o k).getLast?

mutual

/-- Test that no key of the property set, at any depth, contains `.`. -/
def psNoDotKeys : PropertySet → Bool
  | [] => true
  | (k, v) :: rest => !hasDot k && valueNoDotKeys v && psNoDotKeys rest

/-- Test that no key inside the value, at any depth, contains `.`. -/
def valueNoDotKeys : Value → Bool
  | .obj fs => psNoDotKeys fs
  | .arr es => elemsNoDotKeys es
  | _ => true

/-- Test that no key inside any element, at any depth, contains `.`. -/
def elemsNoDotKeys : List Value → Bool
  | [] => true
  | v :: rest => valueNoDotKeys v && elemsNoDotKeys rest

end

/-- Test that the merged bootstrap document holds a JS object at the path
`spring.cloud.config`. JS arrays are objects too: a property assignment on
an array succeeds, so an array there also keeps the pass alive. -/
def bootstrapHasConfigObject (b : PropertySet) : Bool :=
  match psGet b "spring" with
  | some (.obj springFs) =>
    match psGet springFs "cloud" with
    | some (.obj cloudFs) =>
      match psGet cloudFs "config" with
      | some (.obj _) => true
      | some (.arr _) => true
      | _ => false
    | _ => false
  | _ => false

/-! Basic lemmas about property lookup and assignment. -/

theorem psGet_psSet_self (ps : PropertySet) (k : String) (v : Value) :
    psGet (psSet ps k v) k = some v := by
  induction ps with
  | nil => simp [psSet, psGet]
  | cons head rest ih =>
    obtain ⟨k1, w⟩ := head
    by_cases h : k1 = k
    · simp [psSet, psGet, h]
    · simp [psSet, psGet, h, ih]

theorem psGet_psSet_ne (ps : PropertySet) (k1 k : String) (v : Value) (h : k1 ≠ k) :
    psGet (psSet ps k1 v) k = psGet ps k := by
  induction ps with
  | nil => simp [psSet, psGet, h]
  | cons head rest ih =>
    obtain ⟨k2, w⟩ := head
    by_cases h2 : k2 = k1
    · subst h2
      simp [psSet, psGet, h]
    · simp [psSet, psGet, h2, ih]

theorem psGet_eq_none_of_not_mem (ps : PropertySet) (k : String)
    (h : k ∉ ps.map Prod.fst) : psGet ps k = none := by
  induction ps with
  | nil => rfl
  | cons head rest ih =>
    obtain ⟨k1, w⟩ := head
    simp only [List.map_cons, List.mem_cons, not_or] at h
    have h1 : ¬k1 = k := fun hh => h.1 hh.symm
    simp [psGet, h1, ih h.2]

theorem psGet_extendObj_of_none (t s : PropertySet) (k : String)
    (h : psGet s k = none) : psGet (extendObj t s) k = psGet t k := by
  induction s generalizing t with
  | nil => rfl
  | cons head rest ih =>
    obtain ⟨k1, copy⟩ := head
    by_cases h1 : k1 = k
    · simp [psGet, h1] at h
    · simp only [psGet, if_neg h1] at h
      rw [extendObj, ih _ h, psGet_psSet_ne _ _ _ _ h1]

/-! ## C2 -/

/-- C2 (code bug): the watch callback reschedules exactly when the watcher
is NOT marked running (`if (!this._watchConfig.running) this.startWatch()`),
the opposite of the claim: a firing with the watcher still active installs
no new timer, and a firing after `endWatch()` installs one and marks the
watcher running again. -/
theorem c2_reschedule_condition_inverted :
    (timerFire { interval := 1000, running := true, pending := true }).pending = false
    ∧ (timerFire (endWatch { interval := 1000, running := true, pending := true })).pending = true
    ∧ (timerFire (endWatch { interval := 1000, running := true, pending := true })).running = true :=
  ⟨rfl, rfl, rfl⟩

/-! ## C10 -/

/-- C10 (confirmed): a null or undefined parsed document is rejected by the
profile filter (it has no truthy `profiles` field, but the `document &&`
guards fail first), and removing such a document from the parsed sequence
does not change the merged result of `_readYaml`. -/
theorem c10_null_document_excluded (activeProfiles : Option (List String))
    (docs1 docs2 : List (Option YamlDoc)) :
    shouldUseDocument none activeProfiles = false
    ∧ readYamlMerge (docs1 ++ none :: docs2) activeProfiles
        = readYamlMerge (docs1 ++ docs2) activeProfiles := by
  constructor
  · rfl
  · simp [readYamlMerge, List.foldl_append, shouldUseDocument]

/-! ## C7 -/

theorem tokenIsNegation_ne_empty (t : String) (h : tokenIsNegation t = true) : t ≠ "" := by
  intro he
  subst he
  simp [tokenIsNegation] at h

theorem filterTokens_negation_false (tokens : List String) (activeProfiles : List String)
    (t : String) (hmem : t ∈ tokens) (hneg : tokenIsNegation t = true)
    (hactive : tokenBody t ∈ activeProfiles) :
    ∀ b : Bool, filterTokens tokens activeProfiles b = false := by
  induction tokens with
  | nil => cases hmem
  | cons hd rest ih =>
    intro b
    rcases List.mem_cons.mp hmem with heq | hrest
    · subst heq
      rw [filterTokens, if_neg (tokenIsNegation_ne_empty t hneg), hneg]
      simp [hactive]
    · rw [filterTokens]
      split
      · exact ih hrest b
      · split
        · split
          · rfl
          · exact ih hrest b
        · split
          · exact ih hrest true
          · exact ih hrest b

/-- C7 (confirmed): a document whose `profiles` list contains a negated
token whose body is an active profile is excluded, whatever the other
tokens are — the negation branch returns `false` from inside the token
loop, and no other branch ever returns `true` early. -/
theorem c7_negated_profile_excludes (doc : YamlDoc) (p : String)
    (activeProfiles : List String) (t : String)
    (hp : doc.profiles = some p) (hmem : t ∈ jsSplit p ',')
    (hneg : tokenIsNegation t = true) (hactive : tokenBody t ∈ activeProfiles) :
    shouldUseDocument (some doc) (some activeProfiles) = false := by
  have hpne : p ≠ "" := by
    intro he
    subst he
    have : t = "" := by simpa [jsSplit, splitListOn] using hmem
    exact tokenIsNegation_ne_empty t hneg this
  rw [shouldUseDocument, hp]
  simp only [if_neg hpne]
  exact filterTokens_negation_false _ _ t hmem hneg hactive false

/-- Witness for C7: `profiles: "prod,!prod"` with active profiles
`["prod"]` is excluded even though the plain token `prod` matches. -/
theorem c7_witness :
    shouldUseDocument (some { profiles := some "prod,!prod", content := [] })
      (some ["prod"]) = false :=
  c7_negated_profile_excludes { profiles := some "prod,!prod", content := [] }
    "prod,!prod" ["prod"] "!prod" rfl (by decide) rfl (by decide)

/-! ## C5 and C6: merge lemmas -/

theorem mergeInto_scalar (src : Option Value) (v : Value) (h : isScalarValue v = true) :
    mergeInto src v = v := by
  cases v <;> simp_all [mergeInto, isScalarValue]

theorem psGet_extendObj_of_scalar (t s : PropertySet) (k : String) (v : Value)
    (hget : psGet s k = some v) (hsc : isScalarValue v = true) (hnd : psKeysNodup s) :
    psGet (extendObj t s) k = some v := by
  induction s generalizing t with
  | nil => cases hget
  | cons head rest ih =>
    obtain ⟨k1, copy⟩ := head
    obtain ⟨hnotmem, hndrest⟩ := List.nodup_cons.mp hnd
    by_cases h1 : k1 = k
    · subst h1
      have hv : copy = v := by simpa [psGet] using hget
      subst hv
      rw [extendObj, psGet_extendObj_of_none _ _ _ (psGet_eq_none_of_not_mem _ _ hnotmem),
        mergeInto_scalar _ _ hsc, psGet_psSet_self]
    · have hget2 : psGet rest k = some v := by simpa [psGet, h1] using hget
      rw [extendObj]
      exact ih _ hget2 hndrest

theorem psGet_extendObj_of_objs (t s : PropertySet) (k : String)
    (f1 f2 : List (String × Value))
    (ht : psGet t k = some (.obj f1)) (hs : psGet s k = some (.obj f2))
    (hnd : psKeysNodup s) :
    psGet (extendObj t s) k = some (.obj (extendObj f1 f2)) := by
  induction s generalizing t with
  | nil => cases hs
  | cons head rest ih =>
    obtain ⟨k1, copy⟩ := head
    obtain ⟨hnotmem, hndrest⟩ := List.nodup_cons.mp hnd
    by_cases h1 : k1 = k
    · subst h1
      have hv : copy = Value.obj f2 := by simpa [psGet] using hs
      subst hv
      rw [extendObj, psGet_extendObj_of_none _ _ _ (psGet_eq_none_of_not_mem _ _ hnotmem),
        ht]
      simp [mergeInto, objClone, psGet_psSet_self]
    · have hs2 : psGet rest k = some (.obj f2) := by simpa [psGet, h1] using hs
      rw [extendObj]
      refine ih _ ?_ hs2 hndrest
      rw [psGet_psSet_ne _ _ _ _ h1]
      exact ht

theorem psGet_isSome_psSet (t : PropertySet) (k k1 : String) (v : Value)
    (h : (psGet t k).isSome = true) : (psGet (psSet t k1 v) k).isSome = true := by
  by_cases h1 : k1 = k
  · subst h1
    rw [psGet_psSet_self]
    rfl
  · rwa [psGet_psSet_ne _ _ _ _ h1]

theorem psGet_isSome_extendObj (t s : PropertySet) (k : String)
    (h : (psGet t k).isSome = true ∨ (psGet s k).isSome = true) :
    (psGet (extendObj t s) k).isSome = true := by
  induction s generalizing t with
  | nil =>
    rcases h with h | h
    · exact h
    · cases h
  | cons head rest ih =>
    obtain ⟨k1, copy⟩ := head
    rw [extendObj]
    by_cases h1 : k1 = k
    · subst h1
      refine ih _ (Or.inl ?_)
      rw [psGet_psSet_self]
      rfl
    · refine ih _ ?_
      rcases h with h | h
      · exact Or.inl (psGet_isSome_psSet _ _ _ _ h)
      · simp only [psGet, if_neg h1] at h
        exact Or.inr h

/-- C5 (counterexample): for nested-object values the merged result does
not hold the latest input's value — merging `[{a:{b:1,c:2}}, {a:{b:9}}]`
stores `{b:9,c:2}` at `a`, while the latest input containing `a` holds
`{b:9}`. -/
theorem c5_counterexample :
    psGet (mergeProperties [[("a", .obj [("b", .vNum 1), ("c", .vNum 2)])],
                            [("a", .obj [("b", .vNum 9)])]]) "a"
      = some (.obj [("b", .vNum 9), ("c", .vNum 2)])
    ∧ lastProvided [[("a", .obj [("b", .vNum 1), ("c", .vNum 2)])],
                    [("a", .obj [("b", .vNum 9)])]] "a"
      = some (.obj [("b", .vNum 9)])
    ∧ some (Value.obj [("b", .vNum 9), ("c", .vNum 2)])
      ≠ some (Value.obj [("b", .vNum 9)]) :=
  ⟨rfl, rfl, by simp⟩

/-- C5 (amended): for every key whose value in the latest input containing
it is a scalar (not a nested object or array — those are deep-merged
instead, see C6), the merged result holds exactly that value; in
particular merging `[{x:1},{x:2}]` yields `{x:2}` and merging
`[{x:2},{x:1}]` yields `{x:1}`, so merge is order-sensitive and not
commutative. Inputs are JS objects, so their keys are assumed unique. -/
theorem c5_later_scalar_wins :
    (∀ (objects : List PropertySet) (k : String) (v : Value),
       (∀ o ∈ objects, psKeysNodup o) → isScalarValue v = true →
       lastProvided objects k = some v →
       psGet (mergeProperties objects) k = some v)
    ∧ mergeProperties [[("x", .vNum 1)], [("x", .vNum 2)]] = [("x", .vNum 2)]
    ∧ mergeProperties [[("x", .vNum 2)], [("x", .vNum 1)]] = [("x", .vNum 1)] := by
  refine ⟨?_, rfl, rfl⟩
  intro objects
  induction objects using List.reverseRecOn with
  | nil => intro k v _ _ hlast; cases hlast
  | append_singleton init o ih =>
    intro k v hnd hsc hlast
    have hmerge : mergeProperties (init ++ [o]) = extendObj (mergeProperties init) o := by
      simp [mergeProperties, List.foldl_append]
    rw [hmerge]
    rw [lastProvided, List.filterMap_append] at hlast
    cases hget : psGet o k with
    | some c =>
      have : (List.filterMap (fun o => psGet o k) [o]) = [c] := by
        simp [List.filterMap, hget]
      rw [this, List.getLast?_concat] at hlast
      obtain rfl : c = v := by injection hlast
      exact psGet_extendObj_of_scalar _ _ _ _ hget hsc
        (hnd o (List.mem_append_right _ (List.mem_singleton.mpr rfl)))
    | none =>
      have : (List.filterMap (fun o => psGet o k) [o]) = [] := by
        simp [List.filterMap, hget]
      rw [this, List.append_nil] at hlast
      rw [psGet_extendObj_of_none _ _ _ hget]
      exact ih k v (fun o ho => hnd o (List.mem_append_left _ ho)) hsc hlast

/-- Witness for C5 (amended): merging `[{x:1},{x:2}]` holds `2` at `x`. -/
theorem c5_witness :
    psGet (mergeProperties [[("x", .vNum 1)], [("x", .vNum 2)]]) "x" = some (.vNum 2) :=
  c5_later_scalar_wins.1 [[("x", .vNum 1)], [("x", .vNum 2)]] "x" (.vNum 2)
    (by decide) rfl rfl

/-- C6 (confirmed): when both the target and the source hold a plain
object at a key, `extend(true, ...)` merges the two objects recursively
(the stored value is exactly the deep merge of the two field lists), every
key present in either input is present in the result, and the spec's
example `merge [{a:{b:1,c:2}}, {a:{b:9}}] = {a:{b:9,c:2}}` holds, sibling
key `c` surviving. -/
theorem c6_deep_merge :
    (∀ (target source : PropertySet) (k : String) (f1 f2 : List (String × Value)),
       psGet target k = some (.obj f1) → psGet source k = some (.obj f2) →
       psKeysNodup source →
       psGet (extendObj target source) k = some (.obj (extendObj f1 f2)))
    ∧ (∀ (target source : PropertySet) (k : String),
       (psGet target k).isSome = true ∨ (psGet source k).isSome = true →
       (psGet (extendObj target source) k).isSome = true)
    ∧ mergeProperties [[("a", .obj [("b", .vNum 1), ("c", .vNum 2)])],
                       [("a", .obj [("b", .vNum 9)])]]
        = [("a", .obj [("b", .vNum 9), ("c", .vNum 2)])] :=
  ⟨psGet_extendObj_of_objs, psGet_isSome_extendObj, rfl⟩

/-- Witness for C6: merging `{a:{b:1}}` with `{a:{c:5}}` stores the
recursive merge at `a`, and the key stays present. -/
theorem c6_witness :
    psGet (extendObj [("a", .obj [("b", .vNum 1)])] [("a", .obj [("c", .vNum 5)])]) "a"
      = some (.obj (extendObj [("b", .vNum 1)] [("c", .vNum 5)]))
    ∧ (psGet (extendObj [("a", .obj [("b", .vNum 1)])] [("a", .obj [("c", .vNum 5)])]) "a").isSome
      = true :=
  ⟨c6_deep_merge.1 _ _ "a" _ _ rfl rfl (by simp [psKeysNodup]),
   c6_deep_merge.2.1 _ _ "a" (Or.inl rfl)⟩

/-! ## C3: separator-free keys after dot-path expansion -/

theorem psNoDot_psSet (t : PropertySet) (k : String) (v : Value)
    (ht : psNoDotKeys t = true) (hk : hasDot k = false) (hv : valueNoDotKeys v = true) :
    psNoDotKeys (psSet t k v) = true := by
  induction t with
  | nil => simp [psSet, psNoDotKeys, hk, hv]
  | cons head rest ih =>
    obtain ⟨k1, w⟩ := head
    simp only [psNoDotKeys, Bool.and_eq_true] at ht
    by_cases h1 : k1 = k
    · simp [psSet, h1, psNoDotKeys, hk, hv, ht.2]
    · simp only [psSet, if_neg h1, psNoDotKeys, Bool.and_eq_true]
      exact ⟨ht.1, ih ht.2⟩

theorem valueNoDot_psGet (t : PropertySet) (k : String) (v : Value)
    (ht : psNoDotKeys t = true) (h : psGet t k = some v) : valueNoDotKeys v = true := by
  induction t with
  | nil => cases h
  | cons head rest ih =>
    obtain ⟨k1, w⟩ := head
    simp only [psNoDotKeys, Bool.and_eq_true] at ht
    by_cases h1 : k1 = k
    · have hv : w = v := by simpa [psGet, h1] using h
      subst hv
      exact ht.1.2
    · exact ih ht.2 (by simpa [psGet, h1] using h)

theorem psNoDot_objClone (src : Option Value)
    (hsrc : ∀ v, src = some v → valueNoDotKeys v = true) :
    psNoDotKeys (objClone src) = true := by
  cases src with
  | none => rfl
  | some sv =>
    cases sv with
    | obj f => simpa [valueNoDotKeys] using hsrc _ rfl
    | vStr s => rfl
    | vNum n => rfl
    | vBool b => rfl
    | vNull => rfl
    | arr es => rfl

theorem elemsNoDot_arrClone (src : Option Value)
    (hsrc : ∀ v, src = some v → valueNoDotKeys v = true) :
    elemsNoDotKeys (arrClone src) = true := by
  cases src with
  | none => rfl
  | some sv =>
    cases sv with
    | arr es => simpa [valueNoDotKeys] using hsrc _ rfl
    | vStr s => rfl
    | vNum n => rfl
    | vBool b => rfl
    | vNull => rfl
    | obj f => rfl

mutual

theorem psNoDot_extendObj (t s : PropertySet)
    (ht : psNoDotKeys t = true) (hs : psNoDotKeys s = true) :
    psNoDotKeys (extendObj t s) = true :=
  match s, hs with
  | [], _ => by rwa [extendObj]
  | (k, copy) :: rest, hs => by
    simp only [psNoDotKeys, Bool.and_eq_true] at hs
    rw [extendObj]
    refine psNoDot_extendObj _ rest ?_ hs.2
    refine psNoDot_psSet _ _ _ ht (by simpa using hs.1.1) ?_
    exact valueNoDot_mergeInto (psGet t k) copy (fun v hv => valueNoDot_psGet t k v ht hv) hs.1.2

theorem valueNoDot_mergeInto (src : Option Value) (copy : Value)
    (hsrc : ∀ v, src = some v → valueNoDotKeys v = true)
    (hcopy : valueNoDotKeys copy = true) :
    valueNoDotKeys (mergeInto src copy) = true :=
  match copy with
  | .obj fields => by
    rw [mergeInto]
    show psNoDotKeys (extendObj (objClone src) fields) = true
    exact psNoDot_extendObj _ fields (psNoDot_objClone src hsrc)
      (by simpa [valueNoDotKeys] using hcopy)
  | .arr elems => by
    rw [mergeInto]
    show elemsNoDotKeys (extendArr (arrClone src) elems) = true
    exact elemsNoDot_extendArr _ elems (elemsNoDot_arrClone src hsrc)
      (by simpa [valueNoDotKeys] using hcopy)
  | .vStr s => hcopy
  | .vNum n => hcopy
  | .vBool b => hcopy
  | .vNull => hcopy

theorem elemsNoDot_extendArr (t s : List Value)
    (ht : elemsNoDotKeys t = true) (hs : elemsNoDotKeys s = true) :
    elemsNoDotKeys (extendArr t s) = true :=
  match t, s with
  | _, [] => by rwa [extendArr]
  | [], c :: cs => by
    simp only [elemsNoDotKeys, Bool.and_eq_true] at hs
    rw [extendArr]
    simp only [elemsNoDotKeys, Bool.and_eq_true]
    exact ⟨valueNoDot_mergeInto none c (fun v hv => by cases hv) hs.1,
      elemsNoDot_extendArr [] cs rfl hs.2⟩
  | tv :: ts, c :: cs => by
    simp only [elemsNoDotKeys, Bool.and_eq_true] at ht hs
    rw [extendArr]
    simp only [elemsNoDotKeys, Bool.and_eq_true]
    refine ⟨valueNoDot_mergeInto (some tv) c (fun v hv => ?_) hs.1,
      elemsNoDot_extendArr ts cs ht.2 hs.2⟩
    cases hv
    exact ht.1

end

theorem splitListOn_ne_nil (sep : Char) (l : List Char) : splitListOn sep l ≠ [] := by
  induction l with
  | nil => simp [splitListOn]
  | cons c cs ih =>
    rw [splitListOn]
    by_cases h : c = sep
    · simp [h]
    · simp only [if_neg h]
      cases hr : splitListOn sep cs with
      | nil => exact absurd hr ih
      | cons r rs => simp

theorem splitListOn_no_sep (sep : Char) (l : List Char) :
    ∀ part ∈ splitListOn sep l, sep ∉ part := by
  induction l with
  | nil =>
    intro part hp
    simp [splitListOn] at hp
    simp [hp]
  | cons c cs ih =>
    intro part hp
    rw [splitListOn] at hp
    by_cases h : c = sep
    · rw [if_pos h] at hp
      rcases List.mem_cons.mp hp with rfl | hp2
      · simp
      · exact ih part hp2
    · rw [if_neg h] at hp
      cases hr : splitListOn sep cs with
      | nil => exact absurd hr (splitListOn_ne_nil sep cs)
      | cons r rs =>
        rw [hr] at hp
        rcases List.mem_cons.mp hp with rfl | hp2
        · intro hmem
          rcases List.mem_cons.mp hmem with rfl | hmem2
          · exact h rfl
          · exact ih r (hr ▸ List.mem_cons_self r rs) hmem2
        · exact ih part (hr ▸ List.mem_cons_of_mem r hp2)

theorem jsSplit_no_dot (s : String) :
    ∀ part ∈ jsSplit s '.', hasDot part = false := by
  intro part hp
  rcases List.mem_map.mp hp with ⟨cs, hcs, rfl⟩
  have hnm : '.' ∉ cs := splitListOn_no_sep '.' s.data cs hcs
  simp [hasDot, String.mk, hnm]

theorem valueNoDot_createObject (parts : List String) (v : Value)
    (hparts : ∀ p ∈ parts, hasDot p = false) (hv : valueNoDotKeys v = true) :
    valueNoDotKeys (createObjectForProperty parts v) = true := by
  induction parts with
  | nil => simpa [createObjectForProperty] using hv
  | cons k rest ih =>
    rw [createObjectForProperty]
    show psNoDotKeys [(k, createObjectForProperty rest v)] = true
    simp only [psNoDotKeys, Bool.and_eq_true]
    refine ⟨⟨?_, ih fun p hp => hparts p (List.mem_cons_of_mem _ hp)⟩, trivial⟩
    simp [hparts k (List.mem_cons_self _ _)]

theorem psNoDot_parse_fold (props : PropertySet) (acc : PropertySet)
    (hacc : psNoDotKeys acc = true)
    (hvals : ∀ kv ∈ props, valueNoDotKeys kv.2 = true) :
    psNoDotKeys (props.foldl
      (fun object kv =>
        extendWithValue object (createObjectForProperty (jsSplit kv.1 '.') kv.2))
      acc) = true := by
  induction props generalizing acc with
  | nil => simpa using hacc
  | cons kv rest ih =>
    rw [List.foldl_cons]
    refine ih _ ?_ fun kv2 h2 => hvals kv2 (List.mem_cons_of_mem _ h2)
    have hbuilt := valueNoDot_createObject (jsSplit kv.1 '.') kv.2 (jsSplit_no_dot kv.1)
      (hvals kv (List.mem_cons_self _ _))
    cases hbv : createObjectForProperty (jsSplit kv.1 '.') kv.2 with
    | obj o =>
      rw [hbv] at hbuilt
      exact psNoDot_extendObj _ _ hacc (by simpa [valueNoDotKeys] using hbuilt)
    | vStr s => simpa [extendWithValue] using hacc
    | vNum n => simpa [extendWithValue] using hacc
    | vBool b => simpa [extendWithValue] using hacc
    | vNull => simpa [extendWithValue] using hacc
    | arr es => simpa [extendWithValue] using hacc

/-- C3 (counterexample): dot-path expansion only splits top-level keys, so
a `.`-bearing key inside a nested value survives: expanding
`{a: {"b.c": 1}}` leaves the depth-one key `b.c` intact, violating the
claimed every-depth invariant. -/
theorem c3_counterexample :
    psNoDotKeys (parsePropertiesToObjects (some [("a", .obj [("b.c", .vNum 1)])])) = false
    ∧ parsePropertiesToObjects (some [("a", .obj [("b.c", .vNum 1)])])
      = [("a", .obj [("b.c", .vNum 1)])] :=
  ⟨rfl, rfl⟩

/-- C3 (amended): the keys created by dot-path expansion itself are always
separator-free, so for every input whose values contain no `.`-bearing key
at any depth (in particular every flat PropertySet with scalar values) the
expanded result contains no key with a `.` at any depth; `.`-bearing keys
inside nested input values are carried over unchanged. -/
theorem c3_no_dot_keys (props : PropertySet)
    (hvals : ∀ kv ∈ props, valueNoDotKeys kv.2 = true) :
    psNoDotKeys (parsePropertiesToObjects (some props)) = true :=
  psNoDot_parse_fold props [] rfl hvals

/-- Witness for C3 (amended): expanding `{"a.b": "v"}` yields a fully
separator-free nested object. -/
theorem c3_witness :
    psNoDotKeys (parsePropertiesToObjects (some [("a.b", .vStr "v")])) = true :=
  c3_no_dot_keys [("a.b", .vStr "v")] (by decide)

/-! ## C4: remote-failure resilience -/

theorem readCloudConfig_fetch_fail (b : PropertySet) (fetch : FetchOutcome)
    (hfail : fetch = .failure ∨ fetch = .thrown) :
    readCloudConfig b fetch = readCloudConfig b (.success none) := by
  rcases hfail with rfl | rfl <;> rfl

theorem readCloudConfig_fetch_fail_empty (b : PropertySet) (fetch : FetchOutcome)
    (hfail : fetch = .failure ∨ fetch = .thrown) (r : PropertySet)
    (h : readCloudConfig b fetch = .ok r) : r = [] := by
  rcases hfail with rfl | rfl <;>
  · unfold readCloudConfig at h
    repeat' split at h
    all_goals first | rfl | simp_all

theorem readConfig_ok_shape (activeProfiles : List String)
    (bootstrapFile applicationFile : Except String (List (Option YamlDoc)))
    (profileFile : String → ProfileFileResult) (fetch : FetchOutcome)
    (st : ResolvedState)
    (h : readConfig activeProfiles bootstrapFile applicationFile profileFile fetch = .ok st) :
    readCloudConfig st.bootstrapConfig fetch = .ok st.remoteConfig
    ∧ st.config = mergeProperties [st.bootstrapConfig, st.localConfig, st.remoteConfig] := by
  unfold readConfig at h
  split at h
  · cases h
  · split at h
    · cases h
    · split at h
      · cases h
      · split at h
        · cases h
        · rename_i bootstrapConfig heqName
          cases hrc : readCloudConfig bootstrapConfig fetch with
          | error e => rw [hrc] at h; cases h
          | ok remoteConfig =>
            rw [hrc] at h
            obtain rfl := Except.ok.inj h
            exact ⟨hrc, rfl⟩

/-- C4 (confirmed): when the remote-fetch collaborator fails — the promise
rejects or the client throws — the whole pass behaves exactly as if the
fetch had resolved with nothing: the remote stage yields the empty
PropertySet, the pass's success or failure is unchanged, and a successful
pass composes exactly the merge of the bootstrap and local PropertySets
(merging the empty remote set on top adds nothing). -/
theorem c4_remote_failure_resilient (activeProfiles : List String)
    (bootstrapFile applicationFile : Except String (List (Option YamlDoc)))
    (profileFile : String → ProfileFileResult) (fetch : FetchOutcome)
    (hfail : fetch = .failure ∨ fetch = .thrown) :
    readConfig activeProfiles bootstrapFile applicationFile profileFile fetch
      = readConfig activeProfiles bootstrapFile applicationFile profileFile (.success none)
    ∧ ∀ st : ResolvedState,
        readConfig activeProfiles bootstrapFile applicationFile profileFile fetch = .ok st →
        st.remoteConfig = []
        ∧ st.config = mergeProperties [st.bootstrapConfig, st.localConfig] := by
  constructor
  · rcases hfail with rfl | rfl <;> rfl
  · intro st h
    obtain ⟨hrc, hcfg⟩ := readConfig_ok_shape _ _ _ _ _ _ h
    have hre : st.remoteConfig = [] :=
      readCloudConfig_fetch_fail_empty _ _ hfail _ hrc
    refine ⟨hre, ?_⟩
    rw [hcfg, hre]
    rfl

/-- Witness for C4: a concrete pass with remote enabled whose fetch
rejects behaves like a fetch that resolved with nothing, and its composed
config is the bootstrap-local merge. -/
theorem c4_witness :
    readConfig []
        (.ok [some (YamlDoc.mk none
          [("spring", .obj [("cloud", .obj [("config",
            .obj [("enabled", .vBool true)])])])])])
        (.ok [some (YamlDoc.mk none [("x", .vNum 1)])])
        (fun _ => .absent) .failure
      = readConfig []
        (.ok [some (YamlDoc.mk none
          [("spring", .obj [("cloud", .obj [("config",
            .obj [("enabled", .vBool true)])])])])])
        (.ok [some (YamlDoc.mk none [("x", .vNum 1)])])
        (fun _ => .absent) (.success none)
    ∧ (ResolvedState.mk
        [("spring", .obj [("cloud", .obj [("config",
          .obj [("enabled", .vBool true), ("profiles", .arr [])])])])]
        [("x", .vNum 1)]
        []
        [("spring", .obj [("cloud", .obj [("config",
          .obj [("enabled", .vBool true), ("profiles", .arr [])])])]),
         ("x", .vNum 1)]).remoteConfig = []
    ∧ (ResolvedState.mk
        [("spring", .obj [("cloud", .obj [("config",
          .obj [("enabled", .vBool true), ("profiles", .arr [])])])])]
        [("x", .vNum 1)]
        []
        [("spring", .obj [("cloud", .obj [("config",
          .obj [("enabled", .vBool true), ("profiles", .arr [])])])]),
         ("x", .vNum 1)]).config
      = mergeProperties
        [[("spring", .obj [("cloud", .obj [("config",
           .obj [("enabled", .vBool true), ("profiles", .arr [])])])])],
         [("x", .vNum 1)]] := by
  have h := c4_remote_failure_resilient []
    (.ok [some (YamlDoc.mk none
      [("spring", .obj [("cloud", .obj [("config",
        .obj [("enabled", .vBool true)])])])])])
    (.ok [some (YamlDoc.mk none [("x", .vNum 1)])])
    (fun _ => .absent) .failure (Or.inl rfl)
  exact ⟨h.1, (h.2 _ rfl).1, (h.2 _ rfl).2⟩

/-! ## C9: the bootstrap document must provide spring.cloud.config -/

theorem setBootstrapConfigField_no_object (b : PropertySet) (field : String) (v : Value)
    (h : bootstrapHasConfigObject b = false) :
    (setBootstrapConfigField b field v).toOption = none := by
  unfold setBootstrapConfigField
  cases hs : psGet b "spring" with
  | none => simp [jsRead, hs, Except.toOption]
  | some sv =>
    cases sv with
    | vStr s => simp [jsRead, hs, Except.toOption]
    | vNum n => simp [jsRead, hs, Except.toOption]
    | vBool b2 => simp [jsRead, hs, Except.toOption]
    | vNull => simp [jsRead, hs, Except.toOption]
    | arr es => simp [jsRead, hs, Except.toOption]
    | obj springFs =>
      cases hc : psGet springFs "cloud" with
      | none => simp [jsRead, hs, hc, Except.toOption]
      | some cv =>
        cases cv with
        | vStr s => simp [jsRead, hs, hc, Except.toOption]
        | vNum n => simp [jsRead, hs, hc, Except.toOption]
        | vBool b2 => simp [jsRead, hs, hc, Except.toOption]
        | vNull => simp [jsRead, hs, hc, Except.toOption]
        | arr es => simp [jsRead, hs, hc, Except.toOption]
        | obj cloudFs =>
          cases hcf : psGet cloudFs "config" with
          | none => simp [jsRead, hs, hc, hcf, Except.toOption]
          | some configV =>
            cases configV with
            | vStr s => simp [jsRead, hs, hc, hcf, Except.toOption]
            | vNum n => simp [jsRead, hs, hc, hcf, Except.toOption]
            | vBool b2 => simp [jsRead, hs, hc, hcf, Except.toOption]
            | vNull => simp [jsRead, hs, hc, hcf, Except.toOption]
            | obj f => simp [bootstrapHasConfigObject, hs, hc, hcf] at h
            | arr es => simp [bootstrapHasConfigObject, hs, hc, hcf] at h

/-- C9 (confirmed): whenever the merged, dot-path-expanded bootstrap
document does not hold an object at `spring.cloud.config` (meaning: the
traversal of `spring`, then `cloud`, then `config` does not land on a JS
object — arrays included, since a strict-mode property write on an array
succeeds), the pass rejects at the bootstrap stage, whatever the
application config, overlay files or fetch would have produced — in
particular even when the configuration intends remote config to be
disabled — because `_readConfig` unconditionally executes
`bootstrapConfig.spring.cloud.config.profiles = activeProfiles` before
anything else. -/
theorem c9_bootstrap_requires_config_object (activeProfiles : List String)
    (bootstrapFile applicationFile : Except String (List (Option YamlDoc)))
    (profileFile : String → ProfileFileResult) (fetch : FetchOutcome)
    (bootstrapRaw : PropertySet)
    (hboot : readYamlAsDocument bootstrapFile (some activeProfiles) = .ok bootstrapRaw)
    (hno : bootstrapHasConfigObject bootstrapRaw = false) :
    (readConfig activeProfiles bootstrapFile applicationFile profileFile fetch).toOption
      = none := by
  have hset := setBootstrapConfigField_no_object bootstrapRaw "profiles"
    (.arr (List.map (fun p => Value.vStr p) activeProfiles)) hno
  cases hsb : setBootstrapConfigField bootstrapRaw "profiles"
      (.arr (List.map (fun p => Value.vStr p) activeProfiles)) with
  | error e =>
    unfold readConfig
    simp only [hboot, hsb]
    rfl
  | ok x =>
    rw [hsb] at hset
    simp [Except.toOption] at hset

/-- Witness for C9: an empty bootstrap document (no `spring` key at all)
makes the pass reject even though nothing enables remote config. -/
theorem c9_witness :
    (readConfig [] (.ok [some (YamlDoc.mk none [])]) (.ok [])
      (fun _ => .absent) (.success none)).toOption = none :=
  c9_bootstrap_requires_config_object [] (.ok [some (YamlDoc.mk none [])])
    (.ok []) (fun _ => .absent) (.success none) [] rfl rfl

/-! ## C8: option validation in load() -/

/-- C8 (counterexample): an options object in which both `configPath` and
`activeProfiles` are present, but `configPath` is the empty string, is
rejected by `load()` — the check is JS truthiness, not presence, and `""`
is falsy. -/
theorem c8_counterexample :
    (Options.mk (some "") (some ["dev"]) none).configPath.isSome = true
    ∧ (Options.mk (some "") (some ["dev"]) none).activeProfiles.isSome = true
    ∧ load (Options.mk (some "") (some ["dev"]) none) (.ok []) (.ok [])
        (fun _ => .absent) (.success none) = .error invalidOptionsMessage :=
  ⟨rfl, rfl, rfl⟩

/-- C8 (amended): `load()` fails with the invalid-options rejection, for
every collaborator environment and hence before any file or network I/O,
exactly when `configPath` is missing or the empty string or
`activeProfiles` is missing; with a non-empty `configPath` and any
supplied `activeProfiles` array it proceeds straight to `_readConfig` on
those profiles. -/
theorem c8_load_option_check (opts : Options)
    (bootstrapFile applicationFile : Except String (List (Option YamlDoc)))
    (profileFile : String → ProfileFileResult) (fetch : FetchOutcome) :
    ((opts.configPath = none ∨ opts.configPath = some "" ∨ opts.activeProfiles = none) →
      load opts bootstrapFile applicationFile profileFile fetch
        = .error invalidOptionsMessage)
    ∧ (∀ (path : String) (profiles : List String),
      opts.configPath = some path → path ≠ "" → opts.activeProfiles = some profiles →
      load opts bootstrapFile applicationFile profileFile fetch
        = readConfig profiles bootstrapFile applicationFile profileFile fetch) := by
  constructor
  · intro h
    rcases h with h | h | h <;> simp [load, optionsValid, h]
  · intro path profiles hp hne ha
    simp [load, optionsValid, hp, ha, hne]

/-- Witness for C8 (amended): a missing `configPath` is rejected; a
non-empty `configPath` with an empty profiles array proceeds to
resolution. -/
theorem c8_witness :
    load (Options.mk none (some ["dev"]) none) (.ok []) (.ok [])
      (fun _ => .absent) (.success none) = .error invalidOptionsMessage
    ∧ load (Options.mk (some "/cfg") (some []) none) (.ok []) (.ok [])
      (fun _ => .absent) (.success none)
      = readConfig [] (.ok []) (.ok []) (fun _ => .absent) (.success none) :=
  ⟨(c8_load_option_check (Options.mk none (some ["dev"]) none) (.ok []) (.ok [])
      (fun _ => .absent) (.success none)).1 (Or.inl rfl),
   (c8_load_option_check (Options.mk (some "/cfg") (some []) none) (.ok []) (.ok [])
      (fun _ => .absent) (.success none)).2 "/cfg" [] rfl (by decide) rfl⟩

/-! ## C1: what a watch timer firing actually does -/

/-- C1 (counterexample): a firing of the watch timer does not run the full
pipeline and does not replace the stored configuration: with a resolved
state whose remote fetch now returns `{y:2}`, the emitted refresh payload
is exactly the remote PropertySet `{y:2}` — not the bootstrap-local-remote
merge, which here also carries `spring` and `x` — and `getConfig()` still
returns the untouched prior value. -/
theorem c1_counterexample :
    (configWatchFire
      (SccState.mk
        (some [("spring", .obj [("cloud", .obj [("config",
          .obj [("enabled", .vBool true)])])])])
        (some [("x", .vNum 1)])
        (some [])
        (some [("old", .vNum 0)])
        (WatchConfig.mk 60000 true true))
      (.success (some [("y", .vNum 2)]))).event = .refresh [("y", .vNum 2)]
    ∧ mergeProperties
        [[("spring", .obj [("cloud", .obj [("config",
           .obj [("enabled", .vBool true)])])])],
         [("x", .vNum 1)],
         [("y", .vNum 2)]]
      = [("spring", .obj [("cloud", .obj [("config",
          .obj [("enabled", .vBool true)])])]),
         ("x", .vNum 1), ("y", .vNum 2)]
    ∧ ([("y", .vNum 2)] : PropertySet)
      ≠ [("spring", .obj [("cloud", .obj [("config",
          .obj [("enabled", .vBool true)])])]),
         ("x", .vNum 1), ("y", .vNum 2)]
    ∧ getConfig (configWatchFire
      (SccState.mk
        (some [("spring", .obj [("cloud", .obj [("config",
          .obj [("enabled", .vBool true)])])])])
        (some [("x", .vNum 1)])
        (some [])
        (some [("old", .vNum 0)])
        (WatchConfig.mk 60000 true true))
      (.success (some [("y", .vNum 2)]))).state = some [("old", .vNum 0)]
    ∧ (some [("old", .vNum 0)] : Option PropertySet)
      ≠ some [("spring", .obj [("cloud", .obj [("config",
          .obj [("enabled", .vBool true)])])]),
         ("x", .vNum 1), ("y", .vNum 2)] :=
  ⟨rfl, rfl, by simp, rfl, by simp⟩

/-- C1 (amended): on each firing the watcher re-runs only the remote stage
(`_readCloudConfig` on the stored bootstrap config); when that stage
resolves, the `CONFIG_REFRESH` notification carries exactly its remote
PropertySet, and no instance field other than the watch state is written:
in particular `getConfig()` is unchanged, as are the stored bootstrap,
local and remote configs. -/
theorem c1_watch_fire_remote_stage_only (s : SccState) (b : PropertySet)
    (fetch : FetchOutcome) (remote : PropertySet)
    (hb : s.bootstrapConfig = some b) (hr : readCloudConfig b fetch = .ok remote) :
    (configWatchFire s fetch).event = .refresh remote
    ∧ getConfig (configWatchFire s fetch).state = getConfig s
    ∧ (configWatchFire s fetch).state.bootstrapConfig = s.bootstrapConfig
    ∧ (configWatchFire s fetch).state.localConfig = s.localConfig
    ∧ (configWatchFire s fetch).state.remoteConfig = s.remoteConfig := by
  simp [configWatchFire, hb, hr, getConfig]

/-- Witness for C1 (amended): the concrete firing of `c1_counterexample`
emits the remote PropertySet and leaves the stored config alone. -/
theorem c1_witness :
    (configWatchFire
      (SccState.mk
        (some [("spring", .obj [("cloud", .obj [("config",
          .obj [("enabled", .vBool true)])])])])
        (some [("x", .vNum 1)])
        (some [])
        (some [("old", .vNum 0)])
        (WatchConfig.mk 60000 true true))
      (.success (some [("y", .vNum 2)]))).event = .refresh [("y", .vNum 2)]
    ∧ getConfig (configWatchFire
      (SccState.mk
        (some [("spring", .obj [("cloud", .obj [("config",
          .obj [("enabled", .vBool true)])])])])
        (some [("x", .vNum 1)])
        (some [])
        (some [("old", .vNum 0)])
        (WatchConfig.mk 60000 true true))
      (.success (some [("y", .vNum 2)]))).state
      = getConfig (SccState.mk
        (some [("spring", .obj [("cloud", .obj [("config",
          .obj [("enabled", .vBool true)])])])])
        (some [("x", .vNum 1)])
        (some [])
        (some [("old", .vNum 0)])
        (WatchConfig.mk 60000 true true)) := by
  have h := c1_watch_fire_remote_stage_only
    (SccState.mk
      (some [("spring", .obj [("cloud", .obj [("config",
        .obj [("enabled", .vBool true)])])])])
      (some [("x", .vNum 1)])
      (some [])
      (some [("old", .vNum 0)])
      (WatchConfig.mk 60000 true true))
    [("spring", .obj [("cloud", .obj [("config",
      .obj [("enabled", .vBool true)])])])]
    (.success (some [("y", .vNum 2)]))
    [("y", .vNum 2)] rfl rfl
  exact ⟨h.1, h.2.1⟩
